import Mathlib

/-!
Verification development for the monthly-report ETL pipeline
(`scripts/run_exports_query.py` and `scripts/merge_all_lenders.py`).

The Python source is shallowly embedded as executable Lean definitions:
pandas DataFrames become lists of records, pandas cells become the
`Cell` type (`str` / `num` / `null`, where `null` stands for NaN/NaT/None),
and the per-column transformations of `clean_dataframe`, the rank
computation of `prepare_rank_data`, the writer/reader contract of
`save_to_csv`, and the per-lender driver loop of `main` are each
translated function by function.
-/

/-- A pandas cell: a string, a number (modelled as `Int`; the claims under
verification do not depend on fractional values), or a missing value
(NaN / NaT / None). -/
inductive Cell where
  | str (s : String)
  | num (n : Int)
  | null
deriving DecidableEq

/-- `string_columns` from `clean_dataframe` (run_exports_query.py lines 49-50). -/
def string_columns : List String :=
  ["associated_lender", "exportedLender", "primaryIncome", "rateType",
   "loanPurpose", "lvrBucket", "transactionType", "performance", "scenarioId"]

/-- `numeric_columns` from `clean_dataframe` (lines 51-53). -/
def numeric_columns : List String :=
  ["totalProposedLoanAmount", "lvr", "paygIncome", "weeklyRentalIncome",
   "selfEmployedIncome", "count_all_loan_purpose", "count_all_unique_scenario_id",
   "sum_all_total_proposed_loan_amount"]

/-- The characters deleted by the regex `[\[\]\{\}"\\,]` on line 60. -/
def bad_chars : List Char := [',', '[', ']', '{', '}', '\"', '\\']

/-- `df[col].replace(r'[\[\]\{\}"\\,]', '', regex=True)`: delete every
occurrence of a character of `bad_chars` (line 60). -/
def strip_chars (s : String) : String :=
  String.mk (s.toList.filter (fun c => !(bad_chars.contains c)))

/-- `astype(str)`: a string stays itself, a number is stringified, and a
missing value becomes the literal token pandas prints for it (`"nan"` for
NaN in object columns, `"NaT"` for a missing datetime). -/
def cellToStr (naRep : String) : Cell → Cell
  | Cell.str s => Cell.str s
  | Cell.num n => Cell.str (toString n)
  | Cell.null => Cell.str naRep

/-- The character-stripping applied to a (stringified) cell on line 60. -/
def strip_cell : Cell → Cell
  | Cell.str s => Cell.str (strip_chars s)
  | c => c

/-- `pd.to_numeric(df[col], errors='coerce')` (line 71): numbers pass
through, parseable strings are coerced, everything else becomes missing. -/
def toNumericCell : Cell → Cell
  | Cell.str s =>
      match s.toInt? with
      | some n => Cell.num n
      | none => Cell.null
  | Cell.num n => Cell.num n
  | Cell.null => Cell.null

/-- The per-cell effect of `clean_dataframe` (lines 47-73), dispatched on
the column name exactly as the source dispatches on column membership:
the `time` column is stringified (line 56), designated string columns are
stringified then stripped (line 60), designated numeric columns are
coerced (line 71), all other columns are untouched. -/
def cleanCell (col : String) (c : Cell) : Cell :=
  if col = "time" then cellToStr "NaT" c
  else if col ∈ string_columns then strip_cell (cellToStr "nan" c)
  else if col ∈ numeric_columns then toNumericCell c
  else c

/-- `clean_dataframe` on a DataFrame represented as a list of rows of
named cells. -/
def clean_dataframe (df : List (List (String × Cell))) : List (List (String × Cell)) :=
  df.map (fun row => row.map (fun p => (p.1, cleanCell p.1 p.2)))

/-- `df[col].str.contains(',', na=False)` for one cell value (line 61). -/
def contains_comma (s : String) : Bool :=
  s.toList.any (fun c => c == ',')

/-- `df[col].str.contains(r'[\[\{].*[\]\}]', na=False)` for one value
(lines 62-63): an opening bracket/brace with a closing bracket/brace
somewhere strictly after it. -/
def json_like_aux : List Char → Bool
  | [] => false
  | c :: rest =>
      ((c == '[' || c == '{') && rest.any (fun d => d == ']' || d == '}'))
        || json_like_aux rest

/-- String form of the JSON-like detector of lines 62-63. -/
def json_like (s : String) : Bool := json_like_aux s.toList

/-- Whether a cleaned cell would trip either warning branch of
`clean_dataframe` (lines 64-67). -/
def cell_flagged : Cell → Bool
  | Cell.str s => contains_comma s || json_like s
  | _ => false

/-! ## The delimited export format (`save_to_csv`, lines 75-104)

`to_csv(..., sep='\t', quoting=csv.QUOTE_ALL, na_rep='', lineterminator='\n',
doublequote=True, encoding='utf-8-sig')`: every field is quote-wrapped,
embedded quotes are doubled, fields are tab-separated, records end with a
single linefeed, and the file starts with a byte-order mark. -/

/-- How `to_csv` renders one cell: strings as-is, numbers via `str`,
missing values as `na_rep` = the empty string. -/
def render_cell : Cell → String
  | Cell.str s => s
  | Cell.num n => toString n
  | Cell.null => ""

/-- Double every embedded quote character (`doublequote=True`). -/
def esc_list : List Char → List Char
  | [] => []
  | c :: cs => if c = '\"' then '\"' :: '\"' :: esc_list cs else c :: esc_list cs

/-- Quote-wrap one field (`quoting=csv.QUOTE_ALL`). -/
def quote_field (s : String) : String :=
  String.mk ('\"' :: (esc_list s.toList ++ ['\"']))

/-- One record line: quoted fields joined by the tab delimiter. -/
def render_line : List String → String
  | [] => ""
  | [f] => quote_field f
  | f :: fs => quote_field f ++ "\t" ++ render_line fs

/-- The file body: one line per record, each terminated by `'\n'`
(`lineterminator='\n'`). -/
def serialize_lines : List (List String) → String
  | [] => ""
  | l :: ls => render_line l ++ "\n" ++ serialize_lines ls

/-- `save_to_csv`'s write: header row first, then the data rows, with a
BOM prefix (`encoding='utf-8-sig'`). -/
def df_to_csv (cols : List String) (rows : List (List Cell)) : String :=
  "\uFEFF" ++ serialize_lines (cols :: rows.map (fun r => r.map render_cell))

/-- `open(..., encoding='utf-8-sig')` strips a leading byte-order mark. -/
def strip_bom (s : String) : String :=
  match s.toList with
  | c :: rest => if c = '\uFEFF' then String.mk rest else s
  | [] => s

/-- The three states of the `csv.reader` quoting automaton: outside any
quoted section, inside a quoted section, and just after a quote character
seen inside a quoted section (which either doubles or closes it). -/
inductive ScanMode where
  | plain
  | quoted
  | afterq
deriving DecidableEq

/-- State machine of `csv.reader(f, delimiter='\t')` with the default
quoting dialect (quote char `"`, doubled quotes, no escape char):
`fld` holds the current field's characters in reverse, `flds` the
completed fields of the current record in reverse, `rows` the completed
records in reverse. -/
def scan : List Char → ScanMode → List Char → List String → List (List String) → List (List String)
  | [], _, fld, flds, rows =>
      if fld = [] ∧ flds = [] then rows.reverse
      else ((String.mk fld.reverse :: flds).reverse :: rows).reverse
  | c :: cs, ScanMode.quoted, fld, flds, rows =>
      if c = '\"' then scan cs ScanMode.afterq fld flds rows
      else scan cs ScanMode.quoted (c :: fld) flds rows
  | c :: cs, ScanMode.afterq, fld, flds, rows =>
      if c = '\"' then scan cs ScanMode.quoted ('\"' :: fld) flds rows
      else if c = '\t' then scan cs ScanMode.plain [] (String.mk fld.reverse :: flds) rows
      else if c = '\n' then scan cs ScanMode.plain [] [] ((String.mk fld.reverse :: flds).reverse :: rows)
      else scan cs ScanMode.plain (c :: fld) flds rows
  | c :: cs, ScanMode.plain, fld, flds, rows =>
      if c = '\"' ∧ fld = [] then scan cs ScanMode.quoted fld flds rows
      else if c = '\t' then scan cs ScanMode.plain [] (String.mk fld.reverse :: flds) rows
      else if c = '\n' then scan cs ScanMode.plain [] [] ((String.mk fld.reverse :: flds).reverse :: rows)
      else scan cs ScanMode.plain (c :: fld) flds rows

/-- Parse a whole exported file back, as `save_to_csv`'s validation step
does with `csv.reader` after stripping the BOM. -/
def parse_csv (file : String) : List (List String) :=
  scan (strip_bom file).toList ScanMode.plain [] [] []

/-! ## The ranking engine (`prepare_rank_data`, lines 106-168)

Records are rows of the per-lender query result after the tier join of
`main` (lines 223-225).  Timestamps are modelled post
timezone-normalisation (lines 109-110 convert to UTC and drop the zone
before any use), keeping the year/month that `dt.to_period('M')`
truncates to plus an opaque within-month component. -/

/-- A calendar month as `pandas.Period('M')` compares it: (year, month). -/
abbrev Month := Nat × Nat

/-- A timezone-normalised timestamp: the year and month that
`dt.to_period('M')` extracts, plus the rest of the instant (day, time of
day), which the ranking logic never inspects. -/
structure Timestamp where
  year : Nat
  month : Nat
  rest : Nat
deriving DecidableEq

/-- `time.dt.to_period('M')` for one timestamp. -/
def Timestamp.toPeriod (t : Timestamp) : Month := (t.year, t.month)

/-- One row of the raw per-lender query result: the `exportedLender`
key, an optional `time`, an optional `scenarioId` (`.count()` on line 121
counts non-null values only), and the remaining named columns, carried
through unchanged until sanitization. -/
structure RawRec where
  exportedLender : String
  time : Option Timestamp
  scenarioId : Option String
  extra : List (String × Cell)
deriving DecidableEq

/-- A record after the tier join: the raw record plus the `Tier` column
(`None` when the lender has no row in `competitor-list.csv`). -/
structure Rec where
  raw : RawRec
  tier : Option String
deriving DecidableEq

/-- `result_df.merge(tier_df, how='left', left_on='exportedLender',
right_on='Lender')` followed by dropping the `Lender` column (lines
223-225).  Pandas left-merge semantics: each left row is repeated once
per matching right row, in left-then-right order, and a left row with no
match is kept once with a null `Tier`. -/
def tier_join (recs : List RawRec) (tbl : List (String × String)) : List Rec :=
  recs.flatMap (fun r =>
    let ms := tbl.filter (fun p => p.1 == r.exportedLender)
    if ms.isEmpty then [{ raw := r, tier := none }]
    else ms.map (fun p => { raw := r, tier := some p.2 }))

/-- The three-target-month filter mask of lines 113-118. -/
def inWindow (cur one two : Month) (r : Rec) : Bool :=
  match r.raw.time with
  | some t => t.toPeriod == cur || t.toPeriod == one || t.toPeriod == two
  | none => false

/-- `result_df_filtered` (line 118). -/
def filtered_recs (recs : List Rec) (cur one two : Month) : List Rec :=
  recs.filter (inWindow cur one two)

/-- The distinct `(Tier, exportedLender, Month)` group keys of the
`groupby` on line 121.  Pandas `groupby` drops rows whose `Tier` key is
null (`dropna=True` default), so only tiered records produce keys.  (The
order of grouped rows is irrelevant to every property proved below.) -/
def group_keys (recs : List Rec) (cur one two : Month) : List (String × String × Month) :=
  ((filtered_recs recs cur one two).filterMap (fun r =>
    match r.tier, r.raw.time with
    | some t, some ts => some (t, r.raw.exportedLender, ts.toPeriod)
    | _, _ => none)).dedup

/-- One row of `count_df` (lines 121-122). -/
structure CountRow where
  tier : String
  exportedLender : String
  month : Month
  scenario_count : Nat
deriving DecidableEq

/-- `count_df`: one row per `(Tier, exportedLender, Month)` key with the
count of non-null `scenarioId` values in that group (line 121). -/
def count_df (recs : List Rec) (cur one two : Month) : List CountRow :=
  (group_keys recs cur one two).map (fun k =>
    { tier := k.1, exportedLender := k.2.1, month := k.2.2,
      scenario_count := ((filtered_recs recs cur one two).filter (fun r =>
        r.tier == some k.1 && r.raw.exportedLender == k.2.1 &&
        r.raw.time.map Timestamp.toPeriod == some k.2.2 &&
        r.raw.scenarioId.isSome)).length })

/-- Insert into a descending-sorted list, keeping earlier elements first
among equals. -/
def insertDesc (x : Nat) : List Nat → List Nat
  | [] => [x]
  | y :: ys => if y ≤ x then x :: y :: ys else y :: insertDesc x ys

/-- Sort a list of counts in descending order. -/
def sortDesc (l : List Nat) : List Nat := l.foldr insertDesc []

/-- Index of the first occurrence of `c`. -/
def idx_of (c : Nat) : List Nat → Nat
  | [] => 0
  | y :: ys => if y = c then 0 else idx_of c ys + 1

/-- `Series.rank(ascending=False, method='min').astype(int)` for one
value `c` of a group `g` (line 125): the 1-based position of the first
occurrence of `c` in the group sorted descending, i.e. competition
ranking. -/
def rank_min (g : List Nat) (c : Nat) : Nat :=
  idx_of c (sortDesc g) + 1

/-- The counts of one `(Tier, Month)` ranking group of line 125. -/
def group_counts (cdf : List CountRow) (t : String) (m : Month) : List Nat :=
  (cdf.filter (fun r => r.tier == t && r.month == m)).map (fun r => r.scenario_count)

/-- `count_df` with its `rank_in_tier` column (line 125): each count row
paired with its within-`(Tier, Month)` competition rank. -/
def ranked_count_df (recs : List Rec) (cur one two : Month) : List (CountRow × Nat) :=
  let cdf := count_df recs cur one two
  cdf.map (fun r => (r, rank_min (group_counts cdf r.tier r.month) r.scenario_count))

/-- The distinct months that actually appear in `count_df`: these are the
only `Month` column values `pivot_table` creates columns for. -/
def months_present (cdf : List CountRow) : List Month :=
  (cdf.map (fun r => r.month)).dedup

/-- One cell of the pivoted rank block (lines 128-133): the rank of
`(t, l)` in month `m` when the pair was counted that month, and the
`fill_value=0` of `pivot_table` otherwise. -/
def pivot_rank (rdf : List (CountRow × Nat)) (t l : String) (m : Month) : Nat :=
  match rdf.find? (fun p => p.1.tier == t && p.1.exportedLender == l && p.1.month == m) with
  | some p => p.2
  | none => 0

/-- One row of `pivot_df` restricted to the columns selected on line 158. -/
structure PivotRow where
  tier : String
  exportedLender : String
  rank_in_tier_one_month : Nat
  rank_in_tier_two_months : Nat
deriving DecidableEq

/-- `pivot_df` (lines 128-154): one row per distinct `(Tier,
exportedLender)` pair of `count_df`, with the two lagging months' rank
columns (already renamed as on lines 146-154). -/
def pivot_df (recs : List Rec) (cur one two : Month) : List PivotRow :=
  let rdf := ranked_count_df recs cur one two
  ((count_df recs cur one two).map (fun r => (r.tier, r.exportedLender))).dedup.map (fun k =>
    { tier := k.1, exportedLender := k.2,
      rank_in_tier_one_month := pivot_rank rdf k.1 k.2 one,
      rank_in_tier_two_months := pivot_rank rdf k.1 k.2 two })

/-- One row of the ranking engine's output: the original record plus the
two merged rank columns (`None` = NaN when the record's `(Tier,
exportedLender)` pair has no `pivot_df` row). -/
structure OutRec where
  base : Rec
  rank_in_tier_one_month : Option Nat
  rank_in_tier_two_months : Option Nat
deriving DecidableEq

/-- The pivot rows matching one record's `(Tier, exportedLender)` merge
key (a null `Tier` matches nothing: `pivot_df` only holds non-null
tiers). -/
def merge_matches (pdf : List PivotRow) (r : Rec) : List PivotRow :=
  pdf.filter (fun p =>
    r.tier == some p.tier && r.raw.exportedLender == p.exportedLender)

/-- The output rows one record contributes to the left merge of lines
157-161: one row per matching pivot row, or a single null-ranked row when
there is no match. -/
def merge_row (pdf : List PivotRow) (r : Rec) : List OutRec :=
  let ms := merge_matches pdf r
  if ms.isEmpty then
    [{ base := r, rank_in_tier_one_month := none, rank_in_tier_two_months := none }]
  else ms.map (fun p =>
    { base := r, rank_in_tier_one_month := some p.rank_in_tier_one_month,
      rank_in_tier_two_months := some p.rank_in_tier_two_months })

/-- The left merge of line 157-161: each original record is repeated once
per matching pivot row (pandas merge semantics), and kept once with null
ranks when there is no match. -/
def merge_ranks (recs : List Rec) (pdf : List PivotRow) : List OutRec :=
  recs.flatMap (merge_row pdf)

/-- `prepare_rank_data` (lines 106-168).  `pivot_table` only creates a
`rank_in_tier` column for months present in `count_df`; when a lagging
month is absent the rename on lines 146-154 silently does nothing and the
column selection on line 158 raises a `KeyError`, modelled as `.error`. -/
def prepare_rank_data (recs : List Rec) (cur one two : Month) : Except String (List OutRec) :=
  let cdf := count_df recs cur one two
  if one ∈ months_present cdf ∧ two ∈ months_present cdf then
    Except.ok (merge_ranks recs (pivot_df recs cur one two))
  else
    Except.error "KeyError"

/-! ## The per-lender driver (`main`, lines 170-246) -/

/-- The `time` column cell of the merged result. -/
def time_cell : Option Timestamp → Cell
  | none => Cell.null
  | some t => Cell.str (toString t.year ++ "-" ++ toString t.month ++ "-" ++ toString t.rest)

/-- The `scenarioId` column cell. -/
def scen_cell : Option String → Cell
  | none => Cell.null
  | some s => Cell.str s

/-- The `Tier` column cell. -/
def tier_cell : Option String → Cell
  | none => Cell.null
  | some s => Cell.str s

/-- A merged rank column cell: NaN when unmatched, the integer otherwise. -/
def rank_cell : Option Nat → Cell
  | none => Cell.null
  | some n => Cell.num (Int.ofNat n)

/-- One output row as a row of named cells, ready for `clean_dataframe`
and `save_to_csv`. -/
def out_rec_cells (o : OutRec) : List (String × Cell) :=
  ("exportedLender", Cell.str o.base.raw.exportedLender) ::
  ("time", time_cell o.base.raw.time) ::
  ("scenarioId", scen_cell o.base.raw.scenarioId) ::
  ("Tier", tier_cell o.base.tier) ::
  ("rank_in_tier_one_month", rank_cell o.rank_in_tier_one_month) ::
  ("rank_in_tier_two_months", rank_cell o.rank_in_tier_two_months) ::
  o.base.raw.extra

/-- The body of `main`'s per-lender `try` block (lines 220-239): read the
tier table (`pd.read_csv('competitor-list.csv')`, line 223 — inside the
loop, so a missing or malformed file surfaces here, per lender), join,
rank, clean, and serialize.  Any raised step makes the whole lender fail. -/
def process_lender (tier_source : Except String (List (String × String)))
    (recs : List RawRec) (cur one two : Month) (cols : List String) :
    Except String String := do
  let tbl ← tier_source
  let joined := tier_join recs tbl
  let ranked ← prepare_rank_data joined cur one two
  let df := ranked.map out_rec_cells
  let cleaned := clean_dataframe df
  Except.ok (df_to_csv cols (cleaned.map (fun row => row.map (fun p => p.2))))

/-- `main`'s lender loop (lines 207-242): each lender is processed inside
`try/except`; an exception is printed and the loop continues with the
next lender (`none` = no export written for that lender). -/
def run_all (tier_source : Except String (List (String × String)))
    (lenders : List (String × List RawRec)) (cur one two : Month) (cols : List String) :
    List (String × Option String) :=
  lenders.map (fun p => (p.1, (process_lender tier_source p.2 cur one two cols).toOption))

/-! ## Month arithmetic (`main`, lines 179-184) -/

/-- Number of whole months since year 0 for a (year, month) pair. -/
def month_index (m : Month) : Nat := 12 * m.1 + (m.2 - 1)

/-- `current_month - pd.DateOffset(months=k)` on a first-of-month
timestamp (lines 183-184): subtract `k` whole calendar months. -/
def date_offset_sub_months (k : Nat) (m : Month) : Month :=
  ((month_index m - k) / 12, (month_index m - k) % 12 + 1)

/-- The spec's description of one-calendar-month subtraction, written
independently of the code for comparison: decrement the month, borrowing
from the year at a January boundary. -/
def spec_prev_month (m : Month) : Month :=
  if m.2 = 1 then (m.1 - 1, 12) else (m.1, m.2 - 1)

/-! ## Concrete example inputs used by witnesses and counterexamples -/

/-- A tiered record of lender `l` with a timestamp in year `y`, month
`m`, day `d` and a non-null `scenarioId`. -/
def exRec (l : String) (y m d : Nat) : Rec :=
  { raw := { exportedLender := l, time := some { year := y, month := m, rest := d },
             scenarioId := some "s", extra := [] },
    tier := some "T" }

/-- Five tiered records in 2025-07: lenders `a` and `b` with two records
each, lender `c` with one — counts 2, 2, 1. -/
def ex_ranked_recs : List Rec :=
  [exRec "a" 2025 7 1, exRec "a" 2025 7 2, exRec "b" 2025 7 3,
   exRec "b" 2025 7 4, exRec "c" 2025 7 5]

/-- One record in each of 2025-07 (lender `a`), 2025-08 (lender `b`) and
2025-06 (lender `c`). -/
def ex_window_recs : List Rec :=
  [exRec "a" 2025 7 1, exRec "b" 2025 8 2, exRec "c" 2025 6 3]

/-- One record in each lagging month. -/
def ex_two_recs : List Rec := [exRec "a" 2025 7 1, exRec "b" 2025 6 2]

/-- A raw (pre-join) record of lender `l`. -/
def exRaw (l : String) : RawRec :=
  { exportedLender := l, time := some { year := 2025, month := 7, rest := 1 },
    scenarioId := some "s", extra := [] }

/-! ## Helper lemmas -/

lemma strip_chars_idem (s : String) : strip_chars (strip_chars s) = strip_chars s := by
  unfold strip_chars
  have h : (String.mk (s.toList.filter (fun c => !(bad_chars.contains c)))).toList
      = s.toList.filter (fun c => !(bad_chars.contains c)) := rfl
  rw [h, List.filter_filter]
  simp

lemma cleanCell_idem (col : String) (c : Cell) :
    cleanCell col (cleanCell col c) = cleanCell col c := by
  unfold cleanCell
  by_cases h1 : col = "time"
  · simp only [h1, if_true]
    cases c <;> rfl
  · by_cases h2 : col ∈ string_columns
    · simp only [h1, if_false, h2, if_true]
      cases c <;> simp [cellToStr, strip_cell, strip_chars_idem]
    · by_cases h3 : col ∈ numeric_columns
      · simp only [h1, if_false, h2, h3, if_true]
        cases c with
        | str s => simp only [toNumericCell]; cases s.toInt? <;> rfl
        | num n => rfl
        | null => rfl
      · simp [h1, h2, h3]

/-! ## C7: the sanitizer is idempotent -/

/-- C7: `clean_dataframe` is idempotent: applying the sanitizer twice to
any record set yields exactly the result of applying it once — every
already-sanitized string, numeric and timestamp field is unchanged by a
second pass. -/
theorem c7_clean_dataframe_idempotent (df : List (List (String × Cell))) :
    clean_dataframe (clean_dataframe df) = clean_dataframe df := by
  unfold clean_dataframe
  rw [List.map_map]
  apply List.map_congr_left
  intro row _
  simp only [Function.comp, List.map_map]
  apply List.map_congr_left
  intro p _
  simp [cleanCell_idem]

/-! ## C4: calendar-month subtraction -/

/-- C4: for every reference month, `oneBefore` and `twoBefore` are the
result of subtracting exactly 1 and 2 whole calendar months, crossing
year boundaries correctly (they agree with the spec's year-borrowing
description), and in particular 2025-08 gives 2025-07 / 2025-06 and
2025-01 gives 2024-12 / 2024-11. -/
theorem c4_month_subtraction (y m : Nat) (hy : 1 ≤ y) (h1 : 1 ≤ m) (h2 : m ≤ 12) :
    date_offset_sub_months 1 (y, m) = spec_prev_month (y, m) ∧
    date_offset_sub_months 2 (y, m) = spec_prev_month (spec_prev_month (y, m)) ∧
    date_offset_sub_months 1 (2025, 8) = (2025, 7) ∧
    date_offset_sub_months 2 (2025, 8) = (2025, 6) ∧
    date_offset_sub_months 1 (2025, 1) = (2024, 12) ∧
    date_offset_sub_months 2 (2025, 1) = (2024, 11) := by
  refine ⟨?_, ?_, by decide, by decide, by decide, by decide⟩
  · simp only [date_offset_sub_months, spec_prev_month, month_index]
    split_ifs with h <;> (rw [Prod.mk.injEq]; constructor <;> omega)
  · simp only [date_offset_sub_months, spec_prev_month, month_index]
    split_ifs with h h3 h4 <;> (rw [Prod.mk.injEq]; constructor <;> omega)

/-- Witness for C4 at the year boundary month 2025-01. -/
theorem c4_month_subtraction_witness :
    date_offset_sub_months 1 (2025, 1) = spec_prev_month (2025, 1) ∧
    date_offset_sub_months 2 (2025, 1) = spec_prev_month (spec_prev_month (2025, 1)) :=
  ⟨(c4_month_subtraction 2025 1 (by decide) (by decide) (by decide)).1,
   (c4_month_subtraction 2025 1 (by decide) (by decide) (by decide)).2.1⟩

/-! ## C8: rendering of missing values -/

/-- Counterexample to C8 as stated: a record whose designated string
column `primaryIncome` is missing is sanitized by `astype(str)` into the
literal string `nan` (line 60), so the serialized export renders it as
the token `nan`, not as an empty quoted field: the re-parsed file's data
row reads `nan` where the claim requires the empty string. -/
theorem c8_counterexample :
    parse_csv (df_to_csv ["primaryIncome"]
        ((clean_dataframe [[("primaryIncome", Cell.null)]]).map
          (fun row => row.map (fun p => p.2))))
      = [["primaryIncome"], ["nan"]] ∧ ("nan" : String) ≠ "" := by
  constructor
  · rfl
  · decide

/-- C8 as amended: a value that is still missing when it reaches the
serializer (any numeric column, and any column outside the designated
string columns and `time`) is rendered as an empty quoted field `""`,
never as a literal `null`/`nan` token; but a missing value in a
designated string column is stringified by the sanitizer to the literal
token `nan` (and a missing `time` to `NaT`) and rendered as such. -/
theorem c8_missing_value_rendering (col : String) :
    quote_field (render_cell (cleanCell col Cell.null)) =
      (if col = "time" then "\"NaT\""
       else if col ∈ string_columns then "\"nan\""
       else "\"\"") ∧
    quote_field (render_cell Cell.null) = "\"\"" := by
  refine ⟨?_, by decide⟩
  unfold cleanCell
  split_ifs with h1 h2 h3
  · decide
  · decide
  · decide
  · decide

/-! ## C10: the post-strip warning branches are unreachable -/

lemma strip_chars_no_bad (s : String) :
    ∀ c ∈ (strip_chars s).toList, bad_chars.contains c = false := by
  intro c hc
  have h : c ∈ s.toList.filter (fun c => !(bad_chars.contains c)) := hc
  have := (List.mem_filter.mp h).2
  simpa using this

lemma json_like_aux_of_no_open (l : List Char)
    (h : ∀ c ∈ l, c ≠ '[' ∧ c ≠ '{') : json_like_aux l = false := by
  induction l with
  | nil => rfl
  | cons c rest ih =>
      have hc := h c (List.mem_cons_self c rest)
      have h1 : (c == '[') = false := by
        simp [hc.1]
      have h2 : (c == '{') = false := by
        simp [hc.2]
      simp only [json_like_aux, h1, h2, Bool.or_self, Bool.false_and, Bool.false_or]
      exact ih (fun d hd => h d (List.mem_cons_of_mem c hd))

lemma contains_comma_strip (s : String) : contains_comma (strip_chars s) = false := by
  unfold contains_comma
  rw [List.any_eq_false]
  intro c hc
  have := strip_chars_no_bad s c hc
  simp only [bad_chars, List.contains_cons] at this
  intro hcomma
  have : (c == ',') = true := hcomma
  simp_all

lemma json_like_strip (s : String) : json_like (strip_chars s) = false := by
  unfold json_like
  apply json_like_aux_of_no_open
  intro c hc
  have := strip_chars_no_bad s c hc
  simp only [bad_chars, List.contains_cons] at this
  constructor <;> (intro h; subst h; simp_all)

/-- C10: after the character-stripping of line 60, a designated string
field contains none of the deleted characters (comma, brackets, braces,
quote, backslash); hence the comma check of line 61 and the JSON-shape
check of lines 62-63 can never match on any input, and the two warning
branches of lines 64-67 are unreachable. -/
theorem c10_strip_warnings_unreachable :
    (∀ s : String,
      ((strip_chars s).toList.all (fun c => !(bad_chars.contains c)) = true) ∧
      contains_comma (strip_chars s) = false ∧
      json_like (strip_chars s) = false) ∧
    (∀ col ∈ string_columns, ∀ c : Cell, cell_flagged (cleanCell col c) = false) := by
  constructor
  · intro s
    refine ⟨?_, contains_comma_strip s, json_like_strip s⟩
    rw [List.all_eq_true]
    intro c hc
    have h := strip_chars_no_bad s c hc
    simp only [h, Bool.not_false]
  · intro col hcol c
    have htime : col ≠ "time" := by
      intro h
      rw [h] at hcol
      revert hcol
      decide
    unfold cleanCell
    rw [if_neg htime, if_pos hcol]
    cases c with
    | str s =>
        simp [cellToStr, strip_cell, cell_flagged, contains_comma_strip, json_like_strip]
    | num n =>
        simp [cellToStr, strip_cell, cell_flagged, contains_comma_strip, json_like_strip]
    | null =>
        simp [cellToStr, strip_cell, cell_flagged, contains_comma_strip, json_like_strip]

/-- Witness for C10 on a value full of banned characters in a designated
string column. -/
theorem c10_strip_warnings_unreachable_witness :
    contains_comma (strip_chars "a,b[c]{d}\"e\\") = false ∧
    cell_flagged (cleanCell "rateType" (Cell.str "x,[y],{z}")) = false :=
  ⟨(c10_strip_warnings_unreachable.1 "a,b[c]{d}\"e\\").2.1,
   c10_strip_warnings_unreachable.2 "rateType" (by decide) (Cell.str "x,[y],{z}")⟩

/-! ## C6: missing tier lookup is caught per lender, not fatal -/

/-- Counterexample to C6 as stated: the tier table is read inside the
per-lender `try` block (line 223), so with a missing
`competitor-list.csv` the resulting exception is caught on line 241 and
the loop moves on: with two lenders, the driver still produces an
outcome entry for the second lender (it does continue to subsequent
entities), each lender merely ending with no export written. -/
theorem c6_counterexample :
    run_all (Except.error "FileNotFoundError: competitor-list.csv")
        [("alpha", []), ("beta", [])] (2025, 8) (2025, 7) (2025, 6) ["exportedLender"]
      = [("alpha", none), ("beta", none)] ∧
    (run_all (Except.error "FileNotFoundError: competitor-list.csv")
        [("alpha", []), ("beta", [])] (2025, 8) (2025, 7) (2025, 6) ["exportedLender"]).length
      = 2 := by
  constructor
  · rfl
  · rfl

/-- C6 as amended: if the Tier Lookup source is missing or malformed,
every lender's processing fails (the exception is caught and logged per
lender), so no per-entity export is produced — but the run is not
aborted: the driver continues through every subsequent entity. -/
theorem c6_missing_tier_lookup (msg : String) (lenders : List (String × List RawRec))
    (cur one two : Month) (cols : List String) :
    run_all (Except.error msg) lenders cur one two cols
      = lenders.map (fun p => (p.1, none)) ∧
    (run_all (Except.error msg) lenders cur one two cols).length = lenders.length := by
  constructor
  · unfold run_all process_lender
    apply List.map_congr_left
    intro p _
    rfl
  · unfold run_all
    rw [List.length_map]

/-! ## C9: the export round-trips through the reader -/

lemma string_toList_append (a b : String) : (a ++ b).toList = a.toList ++ b.toList := by
  cases a
  cases b
  rfl

lemma string_mk_toList (s : String) : String.mk s.toList = s := rfl

lemma scan_quoted_quote (cs fld flds rows) :
    scan ('\"' :: cs) ScanMode.quoted fld flds rows
      = scan cs ScanMode.afterq fld flds rows := rfl

lemma scan_quoted_other (c : Char) (h : c ≠ '\"') (cs fld flds rows) :
    scan (c :: cs) ScanMode.quoted fld flds rows
      = scan cs ScanMode.quoted (c :: fld) flds rows := by
  simp [scan, h]

lemma scan_afterq_quote (cs fld flds rows) :
    scan ('\"' :: cs) ScanMode.afterq fld flds rows
      = scan cs ScanMode.quoted ('\"' :: fld) flds rows := rfl

lemma scan_afterq_tab (cs fld flds rows) :
    scan ('\t' :: cs) ScanMode.afterq fld flds rows
      = scan cs ScanMode.plain [] (String.mk fld.reverse :: flds) rows := rfl

lemma scan_afterq_nl (cs fld flds rows) :
    scan ('\n' :: cs) ScanMode.afterq fld flds rows
      = scan cs ScanMode.plain [] [] ((String.mk fld.reverse :: flds).reverse :: rows) := rfl

lemma scan_plain_quote (cs flds rows) :
    scan ('\"' :: cs) ScanMode.plain [] flds rows
      = scan cs ScanMode.quoted [] flds rows := rfl

lemma esc_list_quote (cs : List Char) :
    esc_list ('\"' :: cs) = '\"' :: '\"' :: esc_list cs := by
  simp [esc_list]

lemma esc_list_other (c : Char) (h : c ≠ '\"') (cs : List Char) :
    esc_list (c :: cs) = c :: esc_list cs := by
  simp [esc_list, h]

lemma scan_esc (f : List Char) :
    ∀ (cs fld : List Char) (flds : List String) (rows : List (List String)),
      scan (esc_list f ++ '\"' :: cs) ScanMode.quoted fld flds rows
        = scan cs ScanMode.afterq (f.reverse ++ fld) flds rows := by
  induction f with
  | nil =>
      intro cs fld flds rows
      simp only [esc_list, List.nil_append, List.reverse_nil]
      rw [scan_quoted_quote]
  | cons c f ih =>
      intro cs fld flds rows
      by_cases hc : c = '\"'
      · subst hc
        rw [esc_list_quote]
        simp only [List.cons_append]
        rw [scan_quoted_quote, scan_afterq_quote, ih]
        simp
      · rw [esc_list_other c hc]
        simp only [List.cons_append]
        rw [scan_quoted_other c hc, ih]
        simp

lemma scan_qfield (f : String) (cs : List Char) (flds : List String)
    (rows : List (List String)) :
    scan ((quote_field f).toList ++ cs) ScanMode.plain [] flds rows
      = scan cs ScanMode.afterq f.toList.reverse flds rows := by
  have h : (quote_field f).toList ++ cs = '\"' :: (esc_list f.toList ++ '\"' :: cs) := by
    show ('\"' :: (esc_list f.toList ++ ['\"'])) ++ cs = _
    simp
  rw [h, scan_plain_quote, scan_esc]
  simp

lemma scan_line :
    ∀ (fs : List String), fs ≠ [] →
      ∀ (cs : List Char) (flds : List String) (rows : List (List String)),
        scan ((render_line fs).toList ++ '\n' :: cs) ScanMode.plain [] flds rows
          = scan cs ScanMode.plain [] [] ((flds.reverse ++ fs) :: rows) := by
  intro fs
  induction fs with
  | nil => intro h; exact absurd rfl h
  | cons f fs ih =>
      intro _ cs flds rows
      cases fs with
      | nil =>
          have h : render_line [f] = quote_field f := rfl
          rw [h, scan_qfield, scan_afterq_nl]
          rw [List.reverse_reverse, string_mk_toList]
          simp
      | cons g fs2 =>
          have h : render_line (f :: g :: fs2)
              = quote_field f ++ "\t" ++ render_line (g :: fs2) := rfl
          rw [h, string_toList_append, string_toList_append]
          have ht : ("\t" : String).toList = ['\t'] := rfl
          rw [ht]
          simp only [List.append_assoc, List.singleton_append, List.cons_append]
          rw [scan_qfield, scan_afterq_tab]
          rw [List.reverse_reverse, string_mk_toList]
          simp only [List.nil_append]
          rw [ih (by simp) cs (f :: flds) rows]
          simp

lemma scan_lines :
    ∀ (rs : List (List String)), (∀ r ∈ rs, r ≠ []) →
      ∀ (acc : List (List String)),
        scan (serialize_lines rs).toList ScanMode.plain [] [] acc = acc.reverse ++ rs := by
  intro rs
  induction rs with
  | nil =>
      intro _ acc
      simp [serialize_lines, scan]
  | cons r rs ih =>
      intro h acc
      have hr : r ≠ [] := h r (by simp)
      have hs : serialize_lines (r :: rs) = render_line r ++ "\n" ++ serialize_lines rs := rfl
      rw [hs, string_toList_append, string_toList_append]
      have hn : ("\n" : String).toList = ['\n'] := rfl
      rw [hn]
      simp only [List.append_assoc, List.singleton_append]
      rw [scan_line r hr]
      simp only [List.reverse_nil, List.nil_append]
      rw [ih (fun x hx => h x (by simp [hx])) (r :: acc)]
      simp

lemma strip_bom_prepend (s : String) : strip_bom ("﻿" ++ s) = s := by
  unfold strip_bom
  have h : ("﻿" ++ s).toList = '﻿' :: s.toList := by
    rw [string_toList_append]
    rfl
  rw [h]
  simp [string_mk_toList]

/-- C9: serializing a record set with the export format contract and
re-reading it with the same contract recovers exactly the header and the
data rows: the parsed header is identical field-for-field to the column
list, and the first data row (when present) has as many fields as there
are columns.  This holds for arbitrary field contents — embedded tabs,
quotes and linefeeds are protected by the full quoting of the writer and
undone by the reader. -/
theorem c9_round_trip (cols : List String) (rows : List (List Cell))
    (h1 : cols ≠ []) (h2 : ∀ r ∈ rows, r.length = cols.length) :
    parse_csv (df_to_csv cols rows) = cols :: rows.map (fun r => r.map render_cell) ∧
    (parse_csv (df_to_csv cols rows)).head? = some cols ∧
    (∀ fr, ((parse_csv (df_to_csv cols rows)).drop 1).head? = some fr →
      fr.length = cols.length) := by
  have key : parse_csv (df_to_csv cols rows) = cols :: rows.map (fun r => r.map render_cell) := by
    unfold parse_csv df_to_csv
    rw [strip_bom_prepend, scan_lines]
    · simp
    · intro r hr
      rcases List.mem_cons.mp hr with h | h
      · rw [h]; exact h1
      · rcases List.mem_map.mp h with ⟨r0, hr0, heq⟩
        have hl : r.length = cols.length := by
          rw [← heq, List.length_map]
          exact h2 r0 hr0
        intro hnil
        rw [hnil] at hl
        simp at hl
        exact h1 (List.eq_nil_of_length_eq_zero hl.symm)
  refine ⟨key, by rw [key]; rfl, ?_⟩
  intro fr hfr
  rw [key] at hfr
  cases rows with
  | nil => simp at hfr
  | cons r0 rows' =>
      simp at hfr
      rw [← hfr, List.length_map]
      exact h2 r0 (by simp)

/-- Witness for C9 on a two-column record set with a missing value. -/
theorem c9_round_trip_witness :
    (parse_csv (df_to_csv ["exportedLender", "Tier"] [[Cell.str "acme", Cell.null]])).head?
      = some ["exportedLender", "Tier"] :=
  (c9_round_trip ["exportedLender", "Tier"] [[Cell.str "acme", Cell.null]]
    (by decide) (by decide)).2.1

/-! ## C1: competition (minimum-rank) semantics of the rank column -/

lemma insertDesc_perm (x : Nat) (l : List Nat) : List.Perm (insertDesc x l) (x :: l) := by
  induction l with
  | nil => rfl
  | cons y ys ih =>
      unfold insertDesc
      by_cases h : y ≤ x
      · rw [if_pos h]
      · rw [if_neg h]
        exact (ih.cons y).trans (List.Perm.swap x y ys)

lemma sortDesc_perm (l : List Nat) : List.Perm (sortDesc l) l := by
  induction l with
  | nil => rfl
  | cons x xs ih =>
      have h : sortDesc (x :: xs) = insertDesc x (sortDesc xs) := rfl
      rw [h]
      exact (insertDesc_perm x (sortDesc xs)).trans (ih.cons x)

lemma insertDesc_sorted (x : Nat) (l : List Nat) (h : l.Sorted (· ≥ ·)) :
    (insertDesc x l).Sorted (· ≥ ·) := by
  induction l with
  | nil => simp [insertDesc]
  | cons y ys ih =>
      rw [List.sorted_cons] at h
      unfold insertDesc
      by_cases hxy : y ≤ x
      · rw [if_pos hxy]
        rw [List.sorted_cons]
        refine ⟨?_, ?_⟩
        · intro b hb
          rcases List.mem_cons.mp hb with hb | hb
          · exact hb ▸ hxy
          · exact le_trans (h.1 b hb) hxy
        · rw [List.sorted_cons]
          exact h
      · rw [if_neg hxy]
        rw [List.sorted_cons]
        refine ⟨?_, ih h.2⟩
        intro b hb
        have hmem := (insertDesc_perm x ys).mem_iff.mp hb
        rcases List.mem_cons.mp hmem with hb2 | hb2
        · exact hb2 ▸ le_of_lt (lt_of_not_le hxy)
        · exact h.1 b hb2

lemma sortDesc_sorted (l : List Nat) : (sortDesc l).Sorted (· ≥ ·) := by
  induction l with
  | nil => simp [sortDesc]
  | cons x xs ih => exact insertDesc_sorted x (sortDesc xs) ih

lemma idx_of_sorted (l : List Nat) (hs : l.Sorted (· ≥ ·)) (c : Nat) (hc : c ∈ l) :
    idx_of c l = (l.filter (fun y => decide (c < y))).length := by
  induction l with
  | nil => cases hc
  | cons a l ih =>
      rw [List.sorted_cons] at hs
      by_cases hac : a = c
      · subst hac
        have h0 : idx_of a (a :: l) = 0 := by simp [idx_of]
        rw [h0, List.filter_cons]
        have h1 : decide (a < a) = false := by simp
        rw [h1]
        have h2 : l.filter (fun y => decide (a < y)) = [] := by
          rw [List.filter_eq_nil_iff]
          intro y hy
          have := hs.1 y hy
          simp
          omega
        rw [h2]
        rfl
      · have hcl : c ∈ l := by
          rcases List.mem_cons.mp hc with h | h
          · exact absurd h.symm hac
          · exact h
        have hca : c ≤ a := hs.1 c hcl
        have hlt : c < a := lt_of_le_of_ne hca (fun h => hac h.symm)
        have h0 : idx_of c (a :: l) = idx_of c l + 1 := by simp [idx_of, hac]
        rw [h0, List.filter_cons]
        have h1 : decide (c < a) = true := by simpa using hlt
        rw [h1]
        simp [ih hs.2 hcl]

/-- Characterisation of pandas competition ranking: the min-rank of a
member of a group equals one plus the number of strictly greater group
values. -/
lemma rank_min_char (g : List Nat) (c : Nat) (hc : c ∈ g) :
    rank_min g c = 1 + (g.filter (fun y => decide (c < y))).length := by
  unfold rank_min
  have hperm : List.Perm (sortDesc g) g := sortDesc_perm g
  have hmem : c ∈ sortDesc g := hperm.mem_iff.mpr hc
  rw [idx_of_sorted _ (sortDesc_sorted g) c hmem]
  rw [← List.countP_eq_length_filter, ← List.countP_eq_length_filter, hperm.countP_eq]
  omega

lemma filter_count_split (c cg : Nat) (hlt : c < cg) :
    ∀ (l : List Nat), (∀ y ∈ l, c < y → cg ≤ y) →
      (l.filter (fun y => decide (c < y))).length
        = (l.filter (fun y => decide (cg < y))).length
          + (l.filter (fun y => decide (y = cg))).length := by
  intro l
  induction l with
  | nil => intro _; simp
  | cons a l ih =>
      intro h
      have ha := h a (List.mem_cons_self a l)
      have ihl := ih (fun y hy => h y (List.mem_cons_of_mem a hy))
      rw [List.filter_cons, List.filter_cons, List.filter_cons]
      by_cases h1 : c < a
      · by_cases h3 : a = cg
        · subst h3
          simp [h1, lt_irrefl]
          omega
        · have h4 : cg < a := lt_of_le_of_ne (ha h1) (Ne.symm h3)
          simp [h1, h4, h3]
          omega
      · have h2 : ¬ cg < a := fun hca => h1 (lt_trans hlt hca)
        have h3 : a ≠ cg := fun he => h1 (he ▸ hlt)
        simp [h1, h2, h3]
        exact ihl

lemma filter_map_length {α β : Type} (f : α → β) (p : β → Bool) (l : List α) :
    ((l.map f).filter p).length = (l.filter (fun a => p (f a))).length := by
  induction l with
  | nil => rfl
  | cons a l ih =>
      rw [List.map_cons, List.filter_cons, List.filter_cons]
      by_cases h : p (f a)
      · rw [if_pos h, if_pos h]
        simp [ih]
      · rw [if_neg h, if_neg h]
        exact ih

/-- C1: within every `(Tier, Month)` group of the aggregation, the
`rank_in_tier` value assigned to each entity equals 1 plus the number of
other entities of the same group with a strictly greater count; tied
counts share the same (minimum) rank; the next distinct count receives
the shared rank plus the tie-group size; counts `[10,10,7]` rank as
`[1,1,3]`; and an entity whose `(Tier, Month)` group contains only itself
gets rank 1. -/
theorem c1_rank_in_tier_competition (recs : List Rec) (cur one two : Month) :
    (∀ p ∈ ranked_count_df recs cur one two,
        p.2 = 1 + ((count_df recs cur one two).filter (fun r =>
          r.tier == p.1.tier && r.month == p.1.month &&
            decide (p.1.scenario_count < r.scenario_count))).length) ∧
    (∀ p q, p ∈ ranked_count_df recs cur one two →
        q ∈ ranked_count_df recs cur one two →
        p.1.tier = q.1.tier → p.1.month = q.1.month →
        p.1.scenario_count = q.1.scenario_count → p.2 = q.2) ∧
    (∀ (g : List Nat) (c cg : Nat), cg ∈ g → c ∈ g → c < cg →
        (∀ y ∈ g, c < y → cg ≤ y) →
        rank_min g c = rank_min g cg + (g.filter (fun y => decide (y = cg))).length) ∧
    ([10, 10, 7].map (rank_min [10, 10, 7]) = [1, 1, 3]) ∧
    (∀ p ∈ ranked_count_df recs cur one two,
        ((count_df recs cur one two).filter (fun r =>
          r.tier == p.1.tier && r.month == p.1.month)).length = 1 → p.2 = 1) := by
  refine ⟨?_, ?_, ?_, by decide, ?_⟩
  · intro p hp
    rcases List.mem_map.mp hp with ⟨r, hr, rfl⟩
    have hmem : r.scenario_count ∈
        group_counts (count_df recs cur one two) r.tier r.month := by
      unfold group_counts
      exact List.mem_map_of_mem _ (List.mem_filter.mpr ⟨hr, by simp⟩)
    show rank_min _ _ = _
    rw [rank_min_char _ _ hmem]
    congr 1
    unfold group_counts
    rw [filter_map_length, List.filter_filter]
    apply congrArg
    apply List.filter_congr
    intro a _
    rw [Bool.and_comm]
  · intro p q hp hq ht hm hc
    rcases List.mem_map.mp hp with ⟨r, hr, rfl⟩
    rcases List.mem_map.mp hq with ⟨r2, hr2, rfl⟩
    simp only at ht hm hc ⊢
    rw [ht, hm, hc]
  · intro g c cg hcg hc hlt hnb
    rw [rank_min_char g c hc, rank_min_char g cg hcg,
        filter_count_split c cg hlt g hnb]
    omega
  · intro p hp hlen
    rcases List.mem_map.mp hp with ⟨r, hr, rfl⟩
    simp only at hlen ⊢
    rcases List.length_eq_one.mp hlen with ⟨x, hx⟩
    have hrx : r ∈ (count_df recs cur one two).filter (fun r2 =>
        r2.tier == r.tier && r2.month == r.month) :=
      List.mem_filter.mpr ⟨hr, by simp⟩
    rw [hx] at hrx
    have hxr : x = r := by
      rcases List.mem_singleton.mp hrx with h
      exact h.symm
    have hgc : group_counts (count_df recs cur one two) r.tier r.month
        = [r.scenario_count] := by
      unfold group_counts
      rw [hx, hxr]
      rfl
    rw [hgc, rank_min_char _ _ (List.mem_singleton.mpr rfl)]
    simp

/-- Witness for C1 on counts 2, 2, 1 in tier `T`, month 2025-07: lender
`c`'s rank row carries rank 3 = 1 + the two strictly-greater counts. -/
theorem c1_rank_in_tier_competition_witness :
    ((⟨{ tier := "T", exportedLender := "c", month := (2025, 7), scenario_count := 1 }, 3⟩ :
        CountRow × Nat)).2
      = 1 + ((count_df ex_ranked_recs (2025, 7) (2025, 6) (2025, 5)).filter (fun r =>
          r.tier == "T" && r.month == ((2025, 7) : Month) && decide (1 < r.scenario_count))).length :=
  (c1_rank_in_tier_competition ex_ranked_recs (2025, 7) (2025, 6) (2025, 5)).1
    ⟨{ tier := "T", exportedLender := "c", month := (2025, 7), scenario_count := 1 }, 3⟩
    (by decide)

/-! ## C2: the merge keeps every record exactly once, in order -/

lemma filter_key_le_one {α β : Type} [DecidableEq β] (key : α → β) (l : List α)
    (hn : (l.map key).Nodup) (p : α → Bool) (k : β) (hp : ∀ x, p x = true ↔ key x = k) :
    (l.filter p).length ≤ 1 := by
  induction l with
  | nil => simp
  | cons a l ih =>
      rw [List.map_cons, List.nodup_cons] at hn
      rw [List.filter_cons]
      by_cases h : p a
      · rw [if_pos h]
        have hk : key a = k := (hp a).mp h
        have hnil : l.filter p = [] := by
          rw [List.filter_eq_nil_iff]
          intro x hx hpx
          exact hn.1 (List.mem_map.mpr ⟨x, hx, ((hp x).mp hpx).trans hk.symm⟩)
        rw [hnil]
        simp
      · rw [if_neg h]
        exact le_trans (ih hn.2) (le_refl 1)

lemma merge_row_map_base (pdf : List PivotRow)
    (hn : (pdf.map (fun p => (p.tier, p.exportedLender))).Nodup) (r : Rec) :
    (merge_row pdf r).map OutRec.base = [r] := by
  unfold merge_row merge_matches
  cases hms : pdf.filter (fun p =>
      r.tier == some p.tier && r.raw.exportedLender == p.exportedLender) with
  | nil => simp
  | cons p ps =>
      cases hr : r.tier with
      | none =>
          exfalso
          have hnil : pdf.filter (fun p =>
              r.tier == some p.tier && r.raw.exportedLender == p.exportedLender) = [] := by
            rw [List.filter_eq_nil_iff]
            intro x _
            rw [hr]
            simp
          rw [hnil] at hms
          cases hms
      | some t =>
          have hle : (pdf.filter (fun p =>
              r.tier == some p.tier && r.raw.exportedLender == p.exportedLender)).length ≤ 1 := by
            refine filter_key_le_one (fun p => (p.tier, p.exportedLender)) pdf hn _
              (t, r.raw.exportedLender) ?_
            intro x
            rw [hr]
            simp only [Bool.and_eq_true, beq_iff_eq, Option.some.injEq, Prod.mk.injEq]
            constructor
            · intro hx
              exact ⟨hx.1.symm, hx.2.symm⟩
            · intro hx
              exact ⟨hx.1.symm, hx.2.symm⟩
          rw [hms] at hle
          simp only [List.length_cons] at hle
          have hps : ps = [] := List.eq_nil_of_length_eq_zero (by omega)
          subst hps
          simp

lemma merge_ranks_map_base (recs : List Rec) (pdf : List PivotRow)
    (hn : (pdf.map (fun p => (p.tier, p.exportedLender))).Nodup) :
    (merge_ranks recs pdf).map OutRec.base = recs := by
  unfold merge_ranks
  induction recs with
  | nil => rfl
  | cons r recs ih =>
      rw [List.flatMap_cons, List.map_append, merge_row_map_base pdf hn r, ih]
      rfl

lemma pivot_df_keys_nodup (recs : List Rec) (cur one two : Month) :
    ((pivot_df recs cur one two).map (fun p => (p.tier, p.exportedLender))).Nodup := by
  simp only [pivot_df]
  rw [List.map_map]
  have h : List.map ((fun p : PivotRow => (p.tier, p.exportedLender)) ∘ (fun k =>
      { tier := k.1, exportedLender := k.2,
        rank_in_tier_one_month :=
          pivot_rank (ranked_count_df recs cur one two) k.1 k.2 one,
        rank_in_tier_two_months :=
          pivot_rank (ranked_count_df recs cur one two) k.1 k.2 two }))
      ((count_df recs cur one two).map (fun r => (r.tier, r.exportedLender))).dedup
      = List.map id
        ((count_df recs cur one two).map (fun r => (r.tier, r.exportedLender))).dedup :=
    List.map_congr_left (fun k _ => rfl)
  rw [h, List.map_id]
  exact List.nodup_dedup _

lemma prepare_rank_data_ok (recs : List Rec) (cur one two : Month) (out : List OutRec)
    (h : prepare_rank_data recs cur one two = Except.ok out) :
    out = merge_ranks recs (pivot_df recs cur one two) := by
  simp only [prepare_rank_data] at h
  split at h
  · injection h with h2
    exact h2.symm
  · cases h

/-- Counterexample to C2 as stated: on an input record set whose two
lagging months contain no records at all (a single record in the current
month), `pivot_table` creates no `rank_in_tier` column for those months,
the rename of lines 146-154 silently does nothing, and the column
selection on line 158 raises a `KeyError` — the ranking engine produces
no output record set whatsoever for this input, so its input records are
not present in any output. -/
theorem c2_counterexample :
    prepare_rank_data [exRec "b" 2025 8 2] (2025, 8) (2025, 7) (2025, 6)
      = Except.error "KeyError" := rfl

/-- C2 as amended: whenever the ranking engine returns an output record
set (which it does exactly when both lagging months appear among the
aggregated records; otherwise line 158 raises and there is no output),
the output is the full original record set, in the original order, each
record present exactly once — no drops, no duplication, regardless of
tier match or timestamp validity — with exactly the two rank columns
added (`OutRec` is the original record plus the two rank fields). -/
theorem c2_record_preservation (recs : List Rec) (cur one two : Month) (out : List OutRec)
    (h : prepare_rank_data recs cur one two = Except.ok out) :
    out.map OutRec.base = recs := by
  rw [prepare_rank_data_ok recs cur one two out h]
  exact merge_ranks_map_base recs _ (pivot_df_keys_nodup recs cur one two)

/-- Witness for C2 on a two-record input covering both lagging months. -/
theorem c2_record_preservation_witness :
    ([{ base := exRec "a" 2025 7 1, rank_in_tier_one_month := some 1,
        rank_in_tier_two_months := some 0 },
      { base := exRec "b" 2025 6 2, rank_in_tier_one_month := some 0,
        rank_in_tier_two_months := some 1 }] : List OutRec).map OutRec.base = ex_two_recs :=
  c2_record_preservation ex_two_recs (2025, 8) (2025, 7) (2025, 6)
    [{ base := exRec "a" 2025 7 1, rank_in_tier_one_month := some 1,
       rank_in_tier_two_months := some 0 },
     { base := exRec "b" 2025 6 2, rank_in_tier_one_month := some 0,
       rank_in_tier_two_months := some 1 }] rfl

/-! ## C3: rank values for lagging months with no qualifying records -/

lemma filtered_time_some (recs : List Rec) (cur one two : Month) (r : Rec)
    (hr : r ∈ filtered_recs recs cur one two) : ∃ ts, r.raw.time = some ts := by
  have h := (List.mem_filter.mp hr).2
  unfold inWindow at h
  cases htime : r.raw.time with
  | none => rw [htime] at h; cases h
  | some ts => exact ⟨ts, rfl⟩

lemma mem_group_keys (recs : List Rec) (cur one two : Month) (t l : String) (m : Month) :
    (t, l, m) ∈ group_keys recs cur one two ↔
      ∃ r ∈ filtered_recs recs cur one two,
        r.tier = some t ∧ r.raw.exportedLender = l ∧
          r.raw.time.map Timestamp.toPeriod = some m := by
  unfold group_keys
  rw [List.mem_dedup, List.mem_filterMap]
  constructor
  · rintro ⟨r, hr, hmatch⟩
    refine ⟨r, hr, ?_⟩
    cases htier : r.tier with
    | none => rw [htier] at hmatch; cases hmatch
    | some tr =>
        cases htime : r.raw.time with
        | none => rw [htier, htime] at hmatch; cases hmatch
        | some ts =>
            rw [htier, htime] at hmatch
            simp only [Option.some.injEq, Prod.mk.injEq] at hmatch
            obtain ⟨h1, h2, h3⟩ := hmatch
            exact ⟨by rw [h1], h2, by simp [h3]⟩
  · rintro ⟨r, hr, h1, h2, h3⟩
    refine ⟨r, hr, ?_⟩
    rw [h1]
    cases htime : r.raw.time with
    | none => rw [htime] at h3; cases h3
    | some ts =>
        rw [htime] at h3
        simp only [Option.map_some', Option.some.injEq] at h3
        simp [h2, h3]

lemma pivot_mem_qualifying (recs : List Rec) (cur one two : Month) (p : PivotRow)
    (hp : p ∈ pivot_df recs cur one two) :
    ∃ r ∈ filtered_recs recs cur one two,
      r.tier = some p.tier ∧ r.raw.exportedLender = p.exportedLender := by
  simp only [pivot_df] at hp
  rcases List.mem_map.mp hp with ⟨k, hk, rfl⟩
  rw [List.mem_dedup] at hk
  rcases List.mem_map.mp hk with ⟨crow, hcrow, hkey⟩
  simp only [count_df] at hcrow
  rcases List.mem_map.mp hcrow with ⟨gk, hgk, rfl⟩
  simp only at hkey
  have hgk2 : (gk.1, gk.2.1, gk.2.2) ∈ group_keys recs cur one two := hgk
  rcases (mem_group_keys recs cur one two gk.1 gk.2.1 gk.2.2).mp hgk2 with ⟨r, hr, h1, h2, _⟩
  refine ⟨r, hr, ?_, ?_⟩
  · rw [h1, ← hkey]
  · rw [h2, ← hkey]

lemma pivot_df_fields (recs : List Rec) (cur one two : Month) (p : PivotRow)
    (hp : p ∈ pivot_df recs cur one two) :
    p.rank_in_tier_one_month
        = pivot_rank (ranked_count_df recs cur one two) p.tier p.exportedLender one ∧
    p.rank_in_tier_two_months
        = pivot_rank (ranked_count_df recs cur one two) p.tier p.exportedLender two := by
  simp only [pivot_df] at hp
  rcases List.mem_map.mp hp with ⟨k, _, rfl⟩
  exact ⟨rfl, rfl⟩

lemma qualifying_pivot_mem (recs : List Rec) (cur one two : Month) (t l : String)
    (h : ∃ r ∈ filtered_recs recs cur one two,
        r.tier = some t ∧ r.raw.exportedLender = l) :
    ({ tier := t, exportedLender := l,
       rank_in_tier_one_month := pivot_rank (ranked_count_df recs cur one two) t l one,
       rank_in_tier_two_months := pivot_rank (ranked_count_df recs cur one two) t l two }
      : PivotRow) ∈ pivot_df recs cur one two := by
  rcases h with ⟨r, hr, h1, h2⟩
  rcases filtered_time_some recs cur one two r hr with ⟨ts, hts⟩
  have hgk : (t, l, ts.toPeriod) ∈ group_keys recs cur one two := by
    rw [mem_group_keys]
    exact ⟨r, hr, h1, h2, by rw [hts]; rfl⟩
  have hkey : (t, l) ∈ ((count_df recs cur one two).map
      (fun r2 => (r2.tier, r2.exportedLender))).dedup := by
    rw [List.mem_dedup]
    simp only [count_df]
    rw [List.map_map]
    exact List.mem_map.mpr ⟨(t, l, ts.toPeriod), hgk, rfl⟩
  simp only [pivot_df]
  exact List.mem_map.mpr ⟨(t, l), hkey, rfl⟩

lemma pivot_rank_zero (recs : List Rec) (cur one two : Month) (t l : String) (m : Month)
    (h : ¬ ∃ r ∈ filtered_recs recs cur one two,
        r.tier = some t ∧ r.raw.exportedLender = l ∧
          r.raw.time.map Timestamp.toPeriod = some m) :
    pivot_rank (ranked_count_df recs cur one two) t l m = 0 := by
  unfold pivot_rank
  have hfind : (ranked_count_df recs cur one two).find? (fun p =>
      p.1.tier == t && p.1.exportedLender == l && p.1.month == m) = none := by
    rw [List.find?_eq_none]
    intro q hq
    simp only [ranked_count_df] at hq
    rcases List.mem_map.mp hq with ⟨crow, hcrow, rfl⟩
    simp only [count_df] at hcrow
    rcases List.mem_map.mp hcrow with ⟨gk, hgk, rfl⟩
    simp only [Bool.and_eq_true, beq_iff_eq]
    rintro ⟨⟨h1, h2⟩, h3⟩
    apply h
    have hgk2 : (t, l, m) ∈ group_keys recs cur one two := by
      have he : gk = (t, l, m) := by
        rw [← h1, ← h2, ← h3]
      rw [← he]
      exact hgk
    exact (mem_group_keys recs cur one two t l m).mp hgk2
  rw [hfind]

lemma merge_row_base_eq (pdf : List PivotRow) (r : Rec) :
    ∀ o ∈ merge_row pdf r, o.base = r := by
  intro o ho
  simp only [merge_row] at ho
  by_cases h : (merge_matches pdf r).isEmpty
  · rw [if_pos h] at ho
    rw [List.mem_singleton] at ho
    rw [ho]
  · rw [if_neg h] at ho
    rcases List.mem_map.mp ho with ⟨p, _, rfl⟩
    rfl

lemma merge_matches_none (pdf : List PivotRow) (r : Rec) (h : r.tier = none) :
    merge_matches pdf r = [] := by
  unfold merge_matches
  rw [List.filter_eq_nil_iff]
  intro p _
  rw [h]
  simp

lemma merge_matches_no_qual (recs : List Rec) (cur one two : Month) (r : Rec) (t : String)
    (ht : r.tier = some t)
    (h : ¬ ∃ r2 ∈ filtered_recs recs cur one two,
        r2.tier = some t ∧ r2.raw.exportedLender = r.raw.exportedLender) :
    merge_matches (pivot_df recs cur one two) r = [] := by
  unfold merge_matches
  rw [List.filter_eq_nil_iff]
  intro p hp hpred
  rw [ht] at hpred
  simp only [Bool.and_eq_true, beq_iff_eq, Option.some.injEq] at hpred
  rcases pivot_mem_qualifying recs cur one two p hp with ⟨r2, hr2, h1, h2⟩
  exact h ⟨r2, hr2, by rw [h1, ← hpred.1], by rw [h2, ← hpred.2]⟩

lemma merge_matches_qual (recs : List Rec) (cur one two : Month) (r : Rec) (t : String)
    (ht : r.tier = some t)
    (hq : ∃ r2 ∈ filtered_recs recs cur one two,
        r2.tier = some t ∧ r2.raw.exportedLender = r.raw.exportedLender) :
    merge_matches (pivot_df recs cur one two) r
      = [{ tier := t, exportedLender := r.raw.exportedLender,
           rank_in_tier_one_month :=
             pivot_rank (ranked_count_df recs cur one two) t r.raw.exportedLender one,
           rank_in_tier_two_months :=
             pivot_rank (ranked_count_df recs cur one two) t r.raw.exportedLender two }] := by
  have hp0 := qualifying_pivot_mem recs cur one two t r.raw.exportedLender hq
  have hp0in : ({ tier := t, exportedLender := r.raw.exportedLender,
                  rank_in_tier_one_month :=
                    pivot_rank (ranked_count_df recs cur one two) t r.raw.exportedLender one,
                  rank_in_tier_two_months :=
                    pivot_rank (ranked_count_df recs cur one two) t r.raw.exportedLender two }
        : PivotRow) ∈ merge_matches (pivot_df recs cur one two) r := by
    unfold merge_matches
    refine List.mem_filter.mpr ⟨hp0, ?_⟩
    rw [ht]
    simp
  have hle : (merge_matches (pivot_df recs cur one two) r).length ≤ 1 := by
    unfold merge_matches
    refine filter_key_le_one (fun p => (p.tier, p.exportedLender)) _
      (pivot_df_keys_nodup recs cur one two) _ (t, r.raw.exportedLender) ?_
    intro x
    rw [ht]
    simp only [Bool.and_eq_true, beq_iff_eq, Option.some.injEq, Prod.mk.injEq]
    constructor
    · intro hx
      exact ⟨hx.1.symm, hx.2.symm⟩
    · intro hx
      exact ⟨hx.1.symm, hx.2.symm⟩
  cases hms : merge_matches (pivot_df recs cur one two) r with
  | nil => rw [hms] at hp0in; cases hp0in
  | cons a as =>
      rw [hms] at hle hp0in
      simp only [List.length_cons] at hle
      have has : as = [] := List.eq_nil_of_length_eq_zero (by omega)
      subst has
      rw [List.mem_singleton] at hp0in
      rw [← hp0in]

/-- C3 as amended: in the merged output, a record whose entity has no
qualifying (tiered, in-window) record at all — in particular a record
with a null tier — carries null for both rank columns; but a record
whose entity does appear in the three-month aggregation while having no
qualifying record in the lagging month `one` carries the integer rank 0
for that month (the `fill_value=0` of `pivot_table`), not null. -/
theorem c3_lagging_month_rank (recs : List Rec) (cur one two : Month) (out : List OutRec)
    (h : prepare_rank_data recs cur one two = Except.ok out) :
    ∀ o ∈ out,
      (o.base.tier = none →
          o.rank_in_tier_one_month = none ∧ o.rank_in_tier_two_months = none) ∧
      (∀ t, o.base.tier = some t →
          (¬ ∃ r ∈ filtered_recs recs cur one two,
              r.tier = some t ∧ r.raw.exportedLender = o.base.raw.exportedLender) →
          o.rank_in_tier_one_month = none ∧ o.rank_in_tier_two_months = none) ∧
      (∀ t, o.base.tier = some t →
          (∃ r ∈ filtered_recs recs cur one two,
              r.tier = some t ∧ r.raw.exportedLender = o.base.raw.exportedLender) →
          (¬ ∃ r ∈ filtered_recs recs cur one two,
              r.tier = some t ∧ r.raw.exportedLender = o.base.raw.exportedLender ∧
                r.raw.time.map Timestamp.toPeriod = some one) →
          o.rank_in_tier_one_month = some 0) := by
  intro o ho
  rw [prepare_rank_data_ok recs cur one two out h] at ho
  unfold merge_ranks at ho
  rcases List.mem_flatMap.mp ho with ⟨r, hr, hor⟩
  have hbase : o.base = r := merge_row_base_eq _ r o hor
  refine ⟨?_, ?_, ?_⟩
  · intro htier
    rw [hbase] at htier
    have hnil := merge_matches_none (pivot_df recs cur one two) r htier
    simp only [merge_row, hnil, List.isEmpty_nil, if_true] at hor
    rw [List.mem_singleton] at hor
    rw [hor]
    exact ⟨rfl, rfl⟩
  · intro t htier hq
    rw [hbase] at htier hq
    have hnil := merge_matches_no_qual recs cur one two r t htier hq
    simp only [merge_row, hnil, List.isEmpty_nil, if_true] at hor
    rw [List.mem_singleton] at hor
    rw [hor]
    exact ⟨rfl, rfl⟩
  · intro t htier hq hnone
    rw [hbase] at htier hq hnone
    have hms := merge_matches_qual recs cur one two r t htier hq
    simp only [merge_row, hms] at hor
    simp at hor
    rw [hor]
    show some (pivot_rank (ranked_count_df recs cur one two) t r.raw.exportedLender one)
      = some 0
    rw [pivot_rank_zero recs cur one two t r.raw.exportedLender one hnone]

/-- Counterexample to C3 as stated: on records of lenders `a` (2025-07),
`b` (2025-08) and `c` (2025-06), all in tier `T`, lender `b` has zero
qualifying records in the lagging month 2025-07, yet its export row
carries `rank_in_tier_one_month = 0` — the integer zero that
`pivot_table(fill_value=0)` put into the rank cell — and that cell is
serialized as the field `"0"`, not as the empty field `""`. -/
theorem c3_counterexample :
    ((prepare_rank_data ex_window_recs (2025, 8) (2025, 7) (2025, 6)).toOption.map
        (fun l => l.map (fun o => o.rank_in_tier_one_month)))
      = some [some 1, some 0, some 0] ∧
    rank_cell (some 0) = Cell.num 0 ∧
    quote_field (render_cell (rank_cell (some 0))) = "\"0\"" ∧
    (some 0 : Option Nat) ≠ none := by
  refine ⟨rfl, rfl, by decide, by decide⟩

/-- Witness for C3 as amended, on the same three-lender input: lender
`b`'s out-row rank for the lagging month is the integer 0. -/
theorem c3_lagging_month_rank_witness :
    ({ base := exRec "b" 2025 8 2, rank_in_tier_one_month := some 0,
       rank_in_tier_two_months := some 0 } : OutRec).rank_in_tier_one_month = some 0 :=
  ((c3_lagging_month_rank ex_window_recs (2025, 8) (2025, 7) (2025, 6)
      [{ base := exRec "a" 2025 7 1, rank_in_tier_one_month := some 1,
         rank_in_tier_two_months := some 0 },
       { base := exRec "b" 2025 8 2, rank_in_tier_one_month := some 0,
         rank_in_tier_two_months := some 0 },
       { base := exRec "c" 2025 6 3, rank_in_tier_one_month := some 0,
         rank_in_tier_two_months := some 1 }] rfl)
    { base := exRec "b" 2025 8 2, rank_in_tier_one_month := some 0,
      rank_in_tier_two_months := some 0 } (by decide)).2.2 "T" rfl (by decide) (by decide)

/-! ## C5: the tier lookup join is a cardinality-preserving left join -/

lemma tier_join_row_map_raw (tbl : List (String × String))
    (hn : (tbl.map Prod.fst).Nodup) (r : RawRec) :
    ((let ms := tbl.filter (fun p => p.1 == r.exportedLender)
      if ms.isEmpty then [{ raw := r, tier := none }]
      else ms.map (fun p => { raw := r, tier := some p.2 })) : List Rec).map Rec.raw
      = [r] := by
  cases hms : tbl.filter (fun p => p.1 == r.exportedLender) with
  | nil => simp [hms]
  | cons p ps =>
      have hle : (tbl.filter (fun p => p.1 == r.exportedLender)).length ≤ 1 := by
        refine filter_key_le_one Prod.fst tbl hn _ r.exportedLender ?_
        intro x
        simp
      rw [hms] at hle
      simp only [List.length_cons] at hle
      have hps : ps = [] := List.eq_nil_of_length_eq_zero (by omega)
      subst hps
      simp [hms]

lemma out_tier_none_ranks_none (recs : List Rec) (cur one two : Month) (out : List OutRec)
    (h : prepare_rank_data recs cur one two = Except.ok out) :
    ∀ o ∈ out, o.base.tier = none →
      o.rank_in_tier_one_month = none ∧ o.rank_in_tier_two_months = none := by
  intro o ho htier
  rw [prepare_rank_data_ok recs cur one two out h] at ho
  unfold merge_ranks at ho
  rcases List.mem_flatMap.mp ho with ⟨r, _, hor⟩
  have hbase : o.base = r := merge_row_base_eq _ r o hor
  rw [hbase] at htier
  have hnil := merge_matches_none (pivot_df recs cur one two) r htier
  simp only [merge_row, hnil, List.isEmpty_nil, if_true] at hor
  rw [List.mem_singleton] at hor
  rw [hor]
  exact ⟨rfl, rfl⟩

/-- C5: with unique entity-name keys in the tier mapping, the Tier
Lookup join returns exactly one output record per input record, in the
input order (same cardinality, no duplication, no loss); a record whose
`exportedLender` has no entry in the mapping still appears, with a null
tier, and — whenever the ranking engine then produces its output — that
record's row carries null in both rank columns, each of which the
exporter renders as the empty quoted field. -/
theorem c5_tier_lookup_left_join (rrecs : List RawRec) (tbl : List (String × String))
    (hn : (tbl.map Prod.fst).Nodup) :
    ((tier_join rrecs tbl).map Rec.raw = rrecs) ∧
    (∀ rec ∈ tier_join rrecs tbl,
        (∀ p ∈ tbl, p.1 ≠ rec.raw.exportedLender) → rec.tier = none) ∧
    (∀ (cur one two : Month) (out : List OutRec),
        prepare_rank_data (tier_join rrecs tbl) cur one two = Except.ok out →
        ∀ o ∈ out, o.base.tier = none →
          o.rank_in_tier_one_month = none ∧ o.rank_in_tier_two_months = none) ∧
    quote_field (render_cell (tier_cell none)) = "\"\"" ∧
    quote_field (render_cell (rank_cell none)) = "\"\"" := by
  refine ⟨?_, ?_, ?_, by decide, by decide⟩
  · unfold tier_join
    induction rrecs with
    | nil => rfl
    | cons r rrecs ih =>
        rw [List.flatMap_cons, List.map_append, tier_join_row_map_raw tbl hn r, ih]
        rfl
  · intro rec hrec hnm
    unfold tier_join at hrec
    rcases List.mem_flatMap.mp hrec with ⟨r, _, hrow⟩
    have hnil : tbl.filter (fun p => p.1 == r.exportedLender) = [] := by
      rw [List.filter_eq_nil_iff]
      intro p hp hpred
      simp only [beq_iff_eq] at hpred
      have hbase : rec.raw = r := by
        by_cases h : (tbl.filter (fun p => p.1 == r.exportedLender)).isEmpty
        · simp only [if_pos h] at hrow
          rw [List.mem_singleton] at hrow
          rw [hrow]
        · simp only [if_neg h] at hrow
          rcases List.mem_map.mp hrow with ⟨q, _, hq⟩
          rw [← hq]
      exact hnm p hp (by rw [hbase]; exact hpred)
    rw [hnil] at hrow
    simp only [List.isEmpty_nil, if_true] at hrow
    rw [List.mem_singleton] at hrow
    rw [hrow]
  · intro cur one two out hok o ho htier
    exact out_tier_none_ranks_none (tier_join rrecs tbl) cur one two out hok o ho htier

/-- Witness for C5: a lender absent from the tier table survives the
join once, with a null tier. -/
theorem c5_tier_lookup_left_join_witness :
    (tier_join [exRaw "zzz"] [("a", "T1")]).map Rec.raw = [exRaw "zzz"] ∧
    ({ raw := exRaw "zzz", tier := none } : Rec).tier = none :=
  ⟨(c5_tier_lookup_left_join [exRaw "zzz"] [("a", "T1")] (by decide)).1,
   (c5_tier_lookup_left_join [exRaw "zzz"] [("a", "T1")] (by decide)).2.1
     { raw := exRaw "zzz", tier := none } (by decide) (by decide)⟩
